import Mathlib

/-!
Shallow embedding of the core algorithms of `agriculture_platform.py`
(class `AgriculturalOptimizer` and class `PricePredictor`).

Numbers are modelled as rationals (`ℚ`).  A benefit-table row (`BRow`)
carries the columns 作物名称 (name), 亩效益/元 (benefit), 种植成本/(元/亩)
(cost), 亩产量/斤 (cropYield) and 销售单价/(元/斤) (price); a planting-table
row (`PRow`) carries 种植地块 (plot), 作物名称 (name), 作物类型 (category),
种植面积/亩 (area) and 种植季次 (season).  Tables are lists of rows, read in
order, exactly as `DataFrame.iterrows` traverses them.
-/

namespace Agri

/-- A row of the benefit table (收益数据).  The column 亩效益/元 is computed
upstream as 亩产量/斤 × 销售单价/(元/斤) − 种植成本/(元/亩) and is present as a
plain column by the time the optimizer runs. -/
structure BRow where
  name : String
  benefit : ℚ
  cost : ℚ
  cropYield : ℚ
  price : ℚ
deriving DecidableEq

/-- A row of the planting table (种植数据). -/
structure PRow where
  plot : String
  name : String
  category : String
  area : ℚ
  season : String
deriving DecidableEq

/-- Maximum of a numeric column, as pandas `Series.max()` computes it on a
nonempty column; the empty-table case (never reached by the algorithms,
which iterate over the same table) is given the junk value 0. -/
def colMax (f : BRow → ℚ) : List BRow → ℚ
  | [] => 0
  | r :: rs => (rs.map f).foldl max (f r)

/-- The Python membership test `'豆' in name` (substring search for the
single character 豆). -/
def isBean (s : String) : Bool :=
  s.toList.contains '豆'

/-- The rotation bonus of `calculate_crop_suitability`: 0.3 for a crop whose
name contains 豆, 0.1 otherwise. -/
def sustainabilityBonus (name : String) : ℚ :=
  if isBean name then 3/10 else 1/10

/-- `calculate_crop_suitability`, for one row of the benefit table:
economic score (weight 0.4) + stability score (weight 0.3) +
sustainability score (weight 0.3), accumulated exactly as the source does. -/
def suitability (tbl : List BRow) (r : BRow) : ℚ :=
  let economic_score := r.benefit / colMax (fun x => x.benefit) tbl
  let cost_stability := 1 - r.cost / colMax (fun x => x.cost) tbl
  let yield_stability := r.cropYield / colMax (fun x => x.cropYield) tbl
  let stability_score := (cost_stability + yield_stability) / 2
  let cost_sustainability := 1 - r.cost / colMax (fun x => x.cost) tbl
  let sustainability_score := (sustainabilityBonus r.name + cost_sustainability) / 2
  0 + economic_score * (4/10) + stability_score * (3/10) + sustainability_score * (3/10)

/-- The crop list `self.benefit_data['作物名称'].tolist()`. -/
def crops (tbl : List BRow) : List String :=
  tbl.map (fun r => r.name)

/-- `self.benefit_data[self.benefit_data['作物名称'] == crop].iloc[0]`:
the first benefit-table row with the given name. -/
def rowFor (tbl : List BRow) (c : String) : BRow :=
  (tbl.find? (fun r => r.name == c)).getD ⟨"", 0, 0, 0, 0⟩

/-- The value `suitability_scores[crop]` of the Python dict built by
`calculate_crop_suitability`: iterating rows in order and assigning into the
dict keyed by name means the last row with the name wins. -/
def scoreFor (tbl : List BRow) (c : String) : ℚ :=
  match (tbl.filter (fun r => r.name == c)).getLast? with
  | some r => suitability tbl r
  | none => 0

/-- `current_planting`: `groupby('作物名称')['种植面积/亩'].sum()` of the
planting table, looked up at a crop name (0 when the name never occurs,
matching `current_planting.get(crop, 0)`). -/
def currentPlanted (pd : List PRow) (c : String) : ℚ :=
  ((pd.filter (fun row => row.name == c)).map (fun row => row.area)).sum

/-- User preferences: risk tier and the three objective weights. -/
structure Prefs where
  risk_level : String
  economic_weight : ℚ
  stability_weight : ℚ
  sustainability_weight : ℚ

/-- `self.risk_levels.get(risk_level, 0.5)`: the scalar risk factor looked
up from the five named tiers, defaulting to 0.5. -/
def riskFactor (s : String) : ℚ :=
  if s = "极度保守" then 1/10
  else if s = "保守" then 3/10
  else if s = "稳健" then 1/2
  else if s = "积极" then 7/10
  else if s = "极度积极" then 9/10
  else 1/2

/-- The parenthesised part of `crop_value` in `optimize_planting_plan`:
economic value + stability value + sustainability value, before the risk
factor multiplies it. -/
def baseValue (tbl : List BRow) (p : Prefs) (c : String) : ℚ :=
  let crop_data := rowFor tbl c
  crop_data.benefit * p.economic_weight
    + (1 - crop_data.cost / 2000) * p.stability_weight
    + scoreFor tbl c * p.sustainability_weight

/-- `crop_value = (economic_value + stability_value + sustainability_value) * risk_factor`:
the objective coefficient of one crop's area variable. -/
def coeff (tbl : List BRow) (p : Prefs) (c : String) : ℚ :=
  baseValue tbl p c * riskFactor p.risk_level

/-- The LP objective at an assignment of areas to crop names. -/
def objValue (tbl : List BRow) (p : Prefs) (alloc : String → ℚ) : ℚ :=
  ((crops tbl).map (fun c => coeff tbl p c * alloc c)).sum

/-- `bean_crops`: the crop names containing 豆. -/
def beanCrops (tbl : List BRow) : List String :=
  (crops tbl).filter (fun c => isBean c)

/-- The variable lower bounds `lowBound=0` of `LpVariable.dicts`. -/
def nonnegOK (tbl : List BRow) (alloc : String → ℚ) : Bool :=
  (crops tbl).all (fun c => decide (0 ≤ alloc c))

/-- The total-area constraint `lpSum(crop_areas) <= total_area`. -/
def totalOK (tbl : List BRow) (total : ℚ) (alloc : String → ℚ) : Bool :=
  decide (((crops tbl).map alloc).sum ≤ total)

/-- The rotation constraint: only when `bean_crops` is nonempty does the
code add `lpSum(bean areas) >= total_area * 0.15`. -/
def rotationOK (tbl : List BRow) (total : ℚ) (alloc : String → ℚ) : Bool :=
  (beanCrops tbl).isEmpty || decide (total * (15/100) ≤ ((beanCrops tbl).map alloc).sum)

/-- The diversity constraint: each crop's area ≤ 30 % of the total. -/
def diversityOK (tbl : List BRow) (total : ℚ) (alloc : String → ℚ) : Bool :=
  (crops tbl).all (fun c => decide (alloc c ≤ total * (3/10)))

/-- The continuity constraint: for every key of `current_planting` (here:
every planting row's crop name) that is also an LP variable, the new area
must lie in `[0.5, 1.5] ×` the current grouped area.  The source iterates
dict items; iterating the rows imposes the same constraint set. -/
def continuityOK (pd : List PRow) (tbl : List BRow) (alloc : String → ℚ) : Bool :=
  pd.all (fun row =>
    !(decide (row.name ∈ crops tbl))
      || (decide (currentPlanted pd row.name * (1/2) ≤ alloc row.name)
          && decide (alloc row.name ≤ currentPlanted pd row.name * (3/2))))

/-- The full constraint system of the LP built by `optimize_planting_plan`. -/
def feasible (pd : List PRow) (tbl : List BRow) (total : ℚ) (alloc : String → ℚ) : Bool :=
  nonnegOK tbl alloc && totalOK tbl total alloc && rotationOK tbl total alloc
    && diversityOK tbl total alloc && continuityOK pd tbl alloc

/-- `status == 'Optimal'` with solution `alloc`: the assignment is feasible
and maximises the objective over the feasible region. -/
def IsOptimal (pd : List PRow) (tbl : List BRow) (p : Prefs) (total : ℚ)
    (alloc : String → ℚ) : Prop :=
  feasible pd tbl total alloc = true ∧
    ∀ a : String → ℚ, feasible pd tbl total a = true →
      objValue tbl p a ≤ objValue tbl p alloc

/-- `new_total_benefit` of the result loop: over crops with a positive
solution value, the sum of 亩效益/元 × new area. -/
def newTotalBenefit (tbl : List BRow) (alloc : String → ℚ) : ℚ :=
  ((crops tbl).map (fun c =>
    if 0 < alloc c then (rowFor tbl c).benefit * alloc c else 0)).sum

/-- `current_total_benefit` of the result loop: accumulated only inside the
`if area > 0` branch, i.e. over crops with a positive new area. -/
def currentTotalOfResult (tbl : List BRow) (pd : List PRow) (alloc : String → ℚ) : ℚ :=
  ((crops tbl).map (fun c =>
    if 0 < alloc c then (rowFor tbl c).benefit * currentPlanted pd c else 0)).sum

/-- `result['expected_improvement']`: the relative benefit improvement in
percent, left at its initial 0 unless `current_total_benefit > 0`. -/
def expectedImprovement (tbl : List BRow) (pd : List PRow) (alloc : String → ℚ) : ℚ :=
  if 0 < currentTotalOfResult tbl pd alloc then
    (newTotalBenefit tbl alloc - currentTotalOfResult tbl pd alloc)
      / currentTotalOfResult tbl pd alloc * 100
  else 0

/-- The benefit of the currently planted areas, summed over the planting
table (whose crop names are foreign keys into the benefit table). -/
def baselineBenefit (tbl : List BRow) (pd : List PRow) : ℚ :=
  (pd.map (fun row => (rowFor tbl row.name).benefit * row.area)).sum

/-- One value of the `risk_scores` dict of `risk_analysis`. -/
structure RiskEntry where
  risk_score : ℚ
  investment : ℚ
  expected_return : ℚ
deriving DecidableEq

/-- The result record of `risk_analysis`. -/
structure RiskResult where
  overall_risk : ℚ
  total_investment : ℚ
  total_expected_return : ℚ
  roi : ℚ
  crop_risks : List (String × RiskEntry)

/-- The per-crop risk score of `risk_analysis`: the average of
`cost/1000` and `1 − yield/max(yield)`. -/
def riskScore (tbl : List BRow) (c : String) : ℚ :=
  let crop_data := rowFor tbl c
  let cost_risk := crop_data.cost / 1000
  let yield_risk := 1 - crop_data.cropYield / colMax (fun x => x.cropYield) tbl
  (cost_risk + yield_risk) / 2

/-- `risk_analysis`, on the items of the `crop_allocations` dict (a dict, so
keys are distinct by construction): per-crop entries, totals, the unweighted
mean `np.mean` of the scores, and the guarded `roi`. -/
def riskAnalysis (tbl : List BRow) (allocs : List (String × ℚ)) : RiskResult :=
  let entries := allocs.map (fun ca =>
    let crop_data := rowFor tbl ca.1
    (ca.1, RiskEntry.mk (riskScore tbl ca.1) (crop_data.cost * ca.2) (crop_data.benefit * ca.2)))
  let total_investment := (entries.map (fun e => e.2.investment)).sum
  let total_expected_return := (entries.map (fun e => e.2.expected_return)).sum
  let overall_risk := ((entries.map (fun e => e.2.risk_score)).sum) / entries.length
  let roi := if 0 < total_investment then total_expected_return / total_investment * 100 else 0
  ⟨overall_risk, total_investment, total_expected_return, roi, entries⟩

/-- State of `PricePredictor`.  The fitted scaler-plus-random-forest
pipeline cannot be embedded; it is abstracted as the oracle `modelPredict`
from (month, year) features to a predicted price.  The claims under proof
concern only the `is_trained` guard and the 0.1 floor, both embedded
exactly. -/
structure Predictor where
  is_trained : Bool
  modelPredict : ℚ → ℚ → ℚ

/-- `PricePredictor.__init__`: `is_trained = False`. -/
def initPredictor : Predictor :=
  ⟨false, fun _ _ => 0⟩

/-- `PricePredictor.train`: on a successful fit the model is stored and
`is_trained` set, returning `True`; the `except` branch leaves the state
unchanged and returns `False`.  The fit outcome is abstracted as an
`Option` oracle. -/
def train (p : Predictor) (fit : Option (ℚ → ℚ → ℚ)) : Bool × Predictor :=
  match fit with
  | some f => (true, ⟨true, f⟩)
  | none => (false, p)

/-- `PricePredictor.predict`: `None` before training; otherwise one price
per requested future date, floored by `max(predicted_price, 0.1)`. -/
def predict (p : Predictor) (dates : List (ℚ × ℚ)) : Option (List ℚ) :=
  if p.is_trained then
    some (dates.map (fun d => max (p.modelPredict d.1 d.2) (1/10)))
  else none

/-- IEEE-754-style value for auditing the float arithmetic of
`calculate_crop_suitability`: a finite value, NaN, or a signed infinity.
The pandas columns hold float64 values, and float64 division by zero yields
NaN or ±infinity silently (a RuntimeWarning, not an exception). -/
inductive FP where
  | num : ℚ → FP
  | nan : FP
  | inf : FP
  | ninf : FP
deriving DecidableEq

/-- Float64 negation. -/
def FP.neg : FP → FP
  | FP.num a => FP.num (-a)
  | FP.nan => FP.nan
  | FP.inf => FP.ninf
  | FP.ninf => FP.inf

/-- Float64 addition: NaN propagates, opposite infinities give NaN. -/
def FP.add : FP → FP → FP
  | FP.num a, FP.num b => FP.num (a + b)
  | FP.nan, _ => FP.nan
  | _, FP.nan => FP.nan
  | FP.inf, FP.ninf => FP.nan
  | FP.ninf, FP.inf => FP.nan
  | FP.inf, _ => FP.inf
  | _, FP.inf => FP.inf
  | FP.ninf, _ => FP.ninf
  | _, FP.ninf => FP.ninf

/-- Float64 subtraction. -/
def FP.sub (a b : FP) : FP :=
  FP.add a (FP.neg b)

/-- Float64 multiplication: NaN propagates, infinity times zero is NaN. -/
def FP.mul : FP → FP → FP
  | FP.num a, FP.num b => FP.num (a * b)
  | FP.nan, _ => FP.nan
  | _, FP.nan => FP.nan
  | FP.inf, FP.num b => if b = 0 then FP.nan else if 0 < b then FP.inf else FP.ninf
  | FP.num a, FP.inf => if a = 0 then FP.nan else if 0 < a then FP.inf else FP.ninf
  | FP.ninf, FP.num b => if b = 0 then FP.nan else if 0 < b then FP.ninf else FP.inf
  | FP.num a, FP.ninf => if a = 0 then FP.nan else if 0 < a then FP.ninf else FP.inf
  | FP.inf, FP.inf => FP.inf
  | FP.inf, FP.ninf => FP.ninf
  | FP.ninf, FP.inf => FP.ninf
  | FP.ninf, FP.ninf => FP.inf

/-- Float64 division: 0/0 is NaN, x/0 is a signed infinity, NaN propagates. -/
def FP.div : FP → FP → FP
  | FP.num a, FP.num b =>
      if b = 0 then (if a = 0 then FP.nan else if 0 < a then FP.inf else FP.ninf)
      else FP.num (a / b)
  | FP.nan, _ => FP.nan
  | _, FP.nan => FP.nan
  | FP.num _, FP.inf => FP.num 0
  | FP.num _, FP.ninf => FP.num 0
  | FP.inf, FP.num b => if 0 ≤ b then FP.inf else FP.ninf
  | FP.ninf, FP.num b => if 0 ≤ b then FP.ninf else FP.inf
  | FP.inf, _ => FP.nan
  | FP.ninf, _ => FP.nan

/-- `calculate_crop_suitability` with its arithmetic carried out in float64
semantics (`FP`), mirroring the source expression for expression.  The
column maxima are finite whenever the table entries are, so only the
divisions can introduce NaN or infinities. -/
def suitabilityFP (tbl : List BRow) (r : BRow) : FP :=
  let economic_score := FP.div (FP.num r.benefit) (FP.num (colMax (fun x => x.benefit) tbl))
  let cost_stability := FP.sub (FP.num 1)
    (FP.div (FP.num r.cost) (FP.num (colMax (fun x => x.cost) tbl)))
  let yield_stability := FP.div (FP.num r.cropYield)
    (FP.num (colMax (fun x => x.cropYield) tbl))
  let stability_score := FP.div (FP.add cost_stability yield_stability) (FP.num 2)
  let cost_sustainability := FP.sub (FP.num 1)
    (FP.div (FP.num r.cost) (FP.num (colMax (fun x => x.cost) tbl)))
  let sustainability_score := FP.div
    (FP.add (FP.num (sustainabilityBonus r.name)) cost_sustainability) (FP.num 2)
  FP.add
    (FP.add
      (FP.add (FP.num 0) (FP.mul economic_score (FP.num (4/10))))
      (FP.mul stability_score (FP.num (3/10))))
    (FP.mul sustainability_score (FP.num (3/10)))

/-! Concrete fixtures used by witnesses and counterexamples. -/

/-- A small benefit table: wheat and soybean. -/
def exTbl : List BRow := [⟨"小麦", 100, 400, 500, 1⟩, ⟨"大豆", 80, 300, 300, 2⟩]

/-- A planting table with 10 亩 of wheat. -/
def exPd : List PRow := [⟨"A1", "小麦", "粮食", 10, "单季"⟩]

/-- Default user preferences (the demo account's). -/
def exPrefs : Prefs := ⟨"稳健", 6/10, 3/10, 1/10⟩

/-- 30 亩 wheat, 30 亩 soybean. -/
def exAlloc : String → ℚ := fun c => if c = "小麦" then 30 else if c = "大豆" then 30 else 0

/-- 12 亩 wheat, 20 亩 soybean: satisfies the continuity bounds of `exPd`. -/
def exAllocC8 : String → ℚ := fun c => if c = "小麦" then 12 else if c = "大豆" then 20 else 0

/-- A planting table whose only row records corn with area exactly 0. -/
def zeroAreaPd : List PRow := [⟨"A1", "玉米", "粮食", 0, "单季"⟩]

/-- A benefit table containing corn and soybean. -/
def zeroAreaTbl : List BRow := [⟨"玉米", 90, 350, 600, 1⟩, ⟨"大豆", 80, 300, 300, 2⟩]

/-- 20 亩 corn, 20 亩 soybean. -/
def zeroAreaAlloc : String → ℚ := fun c => if c = "玉米" then 20 else if c = "大豆" then 20 else 0

/-- 0 亩 corn, 20 亩 soybean. -/
def zeroAreaAllocOK : String → ℚ := fun c => if c = "大豆" then 20 else 0

/-- A planting table with 10 亩 of soybean (a crop of `zeroAreaTbl`). -/
def posAreaPd : List PRow := [⟨"A1", "大豆", "粮食（豆类）", 10, "单季"⟩]

/-- A benefit table whose cost column is identically zero. -/
def zeroCostTbl : List BRow := [⟨"小麦", 100, 0, 500, 1⟩, ⟨"大豆", 50, 0, 300, 2⟩]

/-- A one-crop benefit table with a negative 亩效益/元: corn yielding
1 斤 at 1 元/斤 against a cost of 20 元/亩, so benefit = 1×1 − 20 = −19. -/
def negTbl : List BRow := [⟨"玉米", -19, 20, 1, 1⟩]

/-- 10 亩 of that corn currently planted. -/
def negPd : List PRow := [⟨"A1", "玉米", "粮食", 10, "单季"⟩]

/-- 5 亩 of corn — the continuity lower bound, the optimum when the
objective coefficient is negative. -/
def negAlloc : String → ℚ := fun c => if c = "玉米" then 5 else 0

/-! Helper lemmas. -/

lemma sum_map_zero (l : List String) : (l.map (fun _ => (0 : ℚ))).sum = 0 := by
  induction l with
  | nil => rfl
  | cons a t ih => simp [ih]

lemma all_zero_of_nonneg_of_sum_nonpos (l : List ℚ)
    (hnn : ∀ x ∈ l, 0 ≤ x) (hs : l.sum ≤ 0) : ∀ x ∈ l, x = 0 := by
  induction l with
  | nil => intro x hx; cases hx
  | cons a t ih =>
    have hta : 0 ≤ a := hnn a (by simp)
    have htn : ∀ x ∈ t, 0 ≤ x := fun x hx => hnn x (by simp [hx])
    have hts : 0 ≤ t.sum := List.sum_nonneg htn
    have hsc : a + t.sum ≤ 0 := by simpa using hs
    intro x hx
    rcases List.mem_cons.mp hx with rfl | hxt
    · linarith
    · exact ih htn (by linarith) x hxt

lemma riskFactor_pos (s : String) : 0 < riskFactor s := by
  unfold riskFactor
  split_ifs <;> norm_num

/-- `feasible` unfolded into its propositional content. -/
lemma feasible_iff (pd : List PRow) (tbl : List BRow) (total : ℚ) (alloc : String → ℚ) :
    feasible pd tbl total alloc = true ↔
      (∀ c ∈ crops tbl, 0 ≤ alloc c)
      ∧ ((crops tbl).map alloc).sum ≤ total
      ∧ (beanCrops tbl = [] ∨ total * (15/100) ≤ ((beanCrops tbl).map alloc).sum)
      ∧ (∀ c ∈ crops tbl, alloc c ≤ total * (3/10))
      ∧ (∀ row ∈ pd, row.name ∈ crops tbl →
          currentPlanted pd row.name * (1/2) ≤ alloc row.name
            ∧ alloc row.name ≤ currentPlanted pd row.name * (3/2)) := by
  simp only [feasible, nonnegOK, totalOK, rotationOK, diversityOK, continuityOK,
    List.all_eq_true, List.isEmpty_iff, Bool.and_eq_true, Bool.or_eq_true,
    Bool.not_eq_true', decide_eq_true_eq, decide_eq_false_iff_not]
  constructor
  · rintro ⟨⟨⟨⟨h1, h2⟩, h3⟩, h4⟩, h5⟩
    refine ⟨h1, h2, h3, h4, fun row hrow hmem => ?_⟩
    rcases h5 row hrow with hend | hok
    · exact absurd hmem hend
    · exact hok
  · rintro ⟨h1, h2, h3, h4, h5⟩
    refine ⟨⟨⟨⟨h1, h2⟩, h3⟩, h4⟩, fun row hrow => ?_⟩
    by_cases hmem : row.name ∈ crops tbl
    · exact Or.inr (h5 row hrow hmem)
    · exact Or.inl hmem

/-- The objective factors as the risk factor times a risk-free sum. -/
lemma objValue_factor (tbl : List BRow) (p : Prefs) (a : String → ℚ) :
    objValue tbl p a
      = riskFactor p.risk_level * ((crops tbl).map (fun c => baseValue tbl p c * a c)).sum := by
  unfold objValue coeff
  rw [← List.sum_map_mul_left]
  congr 1
  apply List.map_congr_left
  intro c _
  ring

/-- `baseValue` reads only the three weights, never the risk tier. -/
lemma baseValue_update_risk (tbl : List BRow) (p : Prefs) (r : String) (c : String) :
    baseValue tbl { p with risk_level := r } c = baseValue tbl p c := rfl

lemma currentPlanted_nil (c : String) : currentPlanted [] c = 0 := rfl

lemma currentPlanted_cons (row : PRow) (rest : List PRow) (c : String) :
    currentPlanted (row :: rest) c
      = (if row.name = c then row.area else 0) + currentPlanted rest c := by
  unfold currentPlanted
  rw [List.filter_cons]
  by_cases hc : row.name = c
  · simp [hc]
  · simp [hc]

lemma currentPlanted_nonneg (pd : List PRow) (c : String)
    (h : ∀ row ∈ pd, 0 ≤ row.area) : 0 ≤ currentPlanted pd c := by
  unfold currentPlanted
  apply List.sum_nonneg
  intro x hx
  rcases List.mem_map.mp hx with ⟨row, hrow, rfl⟩
  exact h row (List.mem_of_mem_filter hrow)

lemma exists_row_of_currentPlanted_pos (pd : List PRow) (c : String)
    (h : 0 < currentPlanted pd c) : ∃ row ∈ pd, row.name = c := by
  by_contra hn
  push_neg at hn
  have hfil : pd.filter (fun row => row.name == c) = [] := by
    rw [List.filter_eq_nil_iff]
    intro row hrow
    simp [hn row hrow]
  unfold currentPlanted at h
  rw [hfil] at h
  simp at h

lemma sum_ite_zero (l : List String) (a : String) (k : String → ℚ) (ha : a ∉ l) :
    (l.map (fun c => if a = c then k c else 0)).sum = 0 := by
  induction l with
  | nil => rfl
  | cons b t ih =>
    have hab : a ≠ b := fun h => ha (by simp [h])
    have hat : a ∉ t := fun h => ha (by simp [h])
    simp [hab, ih hat]

lemma sum_ite_single (l : List String) (hnd : l.Nodup) (a : String) (ha : a ∈ l)
    (k : String → ℚ) : (l.map (fun c => if a = c then k c else 0)).sum = k a := by
  induction l with
  | nil => cases ha
  | cons b t ih =>
    rcases List.nodup_cons.mp hnd with ⟨hbt, hndt⟩
    rcases List.mem_cons.mp ha with rfl | hat
    · simp [sum_ite_zero t a k hbt]
    · have hab : a ≠ b := fun h => hbt (h ▸ hat)
      rw [List.map_cons, List.sum_cons, if_neg hab, ih hndt hat, zero_add]

/-- Grouping: a sum over distinct crop names of (weight × grouped planted
area) equals the row-by-row weighted sum over the planting table, provided
every planting row's crop name occurs in the name list. -/
lemma grouped_sum (g : String → ℚ) (cs : List String) (hnd : cs.Nodup) :
    ∀ pd : List PRow, (∀ row ∈ pd, row.name ∈ cs) →
      (cs.map (fun c => g c * currentPlanted pd c)).sum
        = (pd.map (fun row => g row.name * row.area)).sum := by
  intro pd
  induction pd with
  | nil =>
    intro _
    rw [List.map_congr_left (fun c _ => by rw [currentPlanted_nil, mul_zero]),
      sum_map_zero]
    rfl
  | cons row rest ih =>
    intro hfk
    have hmem : row.name ∈ cs := hfk row (by simp)
    have hrest : ∀ r ∈ rest, r.name ∈ cs := fun r hr => hfk r (by simp [hr])
    calc (cs.map (fun c => g c * currentPlanted (row :: rest) c)).sum
        = (cs.map (fun c => (if row.name = c then g c * row.area else 0)
            + g c * currentPlanted rest c)).sum := by
          apply congrArg
          apply List.map_congr_left
          intro c _
          rw [currentPlanted_cons]
          split_ifs <;> ring
      _ = (cs.map (fun c => if row.name = c then g c * row.area else 0)).sum
            + (cs.map (fun c => g c * currentPlanted rest c)).sum := by
          rw [← List.sum_map_add]
      _ = g row.name * row.area + (rest.map (fun r => g r.name * r.area)).sum := by
          rw [ih hrest, sum_ite_single cs hnd row.name hmem (fun c => g c * row.area)]
      _ = ((row :: rest).map (fun r => g r.name * r.area)).sum := by simp

/-! Claim theorems. -/

/-- Claim C1: at fixed planting table, benefit table, preference weights and
total area, the risk tier enters the linear program built by
`optimize_planting_plan` only as the scalar `riskFactor` (0.1, 0.3, 0.5,
0.7 or 0.9) multiplying every objective coefficient uniformly; for any two
risk tiers the optimal area assignments coincide, and the tier only rescales
the objective value. -/
theorem C1_risk_tier_only_rescales (pd : List PRow) (tbl : List BRow) (p : Prefs)
    (total : ℚ) (r1 r2 : String) (alloc : String → ℚ) :
    (IsOptimal pd tbl { p with risk_level := r1 } total alloc ↔
      IsOptimal pd tbl { p with risk_level := r2 } total alloc)
    ∧ objValue tbl { p with risk_level := r1 } alloc
        = riskFactor r1 * ((crops tbl).map (fun c => baseValue tbl p c * alloc c)).sum := by
  have hobj : ∀ (r : String) (a : String → ℚ),
      objValue tbl { p with risk_level := r } a
        = riskFactor r * ((crops tbl).map (fun c => baseValue tbl p c * a c)).sum := by
    intro r a
    rw [objValue_factor]
    rfl
  have key : ∀ r1 r2 : String,
      IsOptimal pd tbl { p with risk_level := r1 } total alloc →
      IsOptimal pd tbl { p with risk_level := r2 } total alloc := by
    intro s1 s2 h
    refine ⟨h.1, fun a ha => ?_⟩
    have h1 := h.2 a ha
    rw [hobj s1 a, hobj s1 alloc] at h1
    rw [hobj s2 a, hobj s2 alloc]
    have hle := le_of_mul_le_mul_left h1 (riskFactor_pos s1)
    exact mul_le_mul_of_nonneg_left hle (le_of_lt (riskFactor_pos s2))
  exact ⟨⟨key r1 r2, key r2 r1⟩, hobj r1 alloc⟩

/-- Claim C2: every feasible assignment of the LP (hence every assignment
returned with `status=optimal`) allocates a total area of at most
`total_area`, gives every crop at most 30 % of the total, and, when the
benefit table contains at least one rotation-beneficial crop, gives the
rotation crops at least 15 % of the total; when no rotation crop is present,
the rotation constraint imposes nothing at all. -/
theorem C2_allocation_invariants (pd : List PRow) (tbl : List BRow) (total : ℚ)
    (alloc : String → ℚ) (h : feasible pd tbl total alloc = true) :
    ((crops tbl).map alloc).sum ≤ total
    ∧ (∀ c ∈ crops tbl, alloc c ≤ total * (3/10))
    ∧ (beanCrops tbl ≠ [] → total * (15/100) ≤ ((beanCrops tbl).map alloc).sum)
    ∧ (beanCrops tbl = [] → rotationOK tbl total alloc = true) := by
  rcases (feasible_iff pd tbl total alloc).mp h with ⟨_, h2, h3, h4, _⟩
  refine ⟨h2, h4, fun hne => ?_, fun hemp => ?_⟩
  · rcases h3 with hb | hb
    · exact absurd hb hne
    · exact hb
  · simp [rotationOK, hemp]

/-- Witness for C2 at a concrete feasible input. -/
theorem C2_allocation_invariants_witness :
    feasible [] exTbl 100 exAlloc = true
    ∧ (((crops exTbl).map exAlloc).sum ≤ 100
      ∧ (∀ c ∈ crops exTbl, exAlloc c ≤ 100 * (3/10))
      ∧ (beanCrops exTbl ≠ [] → 100 * (15/100) ≤ ((beanCrops exTbl).map exAlloc).sum)
      ∧ (beanCrops exTbl = [] → rotationOK exTbl 100 exAlloc = true)) :=
  ⟨by with_unfolding_all decide, C2_allocation_invariants [] exTbl 100 exAlloc (by with_unfolding_all decide)⟩

/-- Counterexample to claim C3: corn appears in the planting table with area
exactly 0, and the assignment giving corn 20 亩 satisfies every constraint
other than the continuity rule, yet is infeasible — the continuity loop also
constrains zero-area crops (to `[0.5·0, 1.5·0] = {0}`), so such a crop may
not receive an area permitted by the remaining constraints. -/
theorem C3_zero_area_counterexample :
    nonnegOK zeroAreaTbl zeroAreaAlloc = true
    ∧ totalOK zeroAreaTbl 100 zeroAreaAlloc = true
    ∧ rotationOK zeroAreaTbl 100 zeroAreaAlloc = true
    ∧ diversityOK zeroAreaTbl 100 zeroAreaAlloc = true
    ∧ continuityOK zeroAreaPd zeroAreaTbl zeroAreaAlloc = false
    ∧ feasible zeroAreaPd zeroAreaTbl 100 zeroAreaAlloc = false := by
  with_unfolding_all decide

/-- Claim C3 as amended: in every feasible assignment, a benefit-table crop
listed in the planting table gets a new area within `[0.5, 1.5] ×` its
current grouped area; in particular a crop whose current grouped area is
nonzero obeys the anti-whiplash band, and a crop that appears in the
planting table with current area exactly 0 is forced to the area 0 (it is
not unconstrained).  Only crops absent from the planting table escape the
continuity rule. -/
theorem C3_continuity_amended (pd : List PRow) (tbl : List BRow) (total : ℚ)
    (alloc : String → ℚ) (h : feasible pd tbl total alloc = true) :
    ∀ row ∈ pd, row.name ∈ crops tbl →
      (currentPlanted pd row.name * (1/2) ≤ alloc row.name
        ∧ alloc row.name ≤ currentPlanted pd row.name * (3/2))
      ∧ (currentPlanted pd row.name = 0 → alloc row.name = 0) := by
  rcases (feasible_iff pd tbl total alloc).mp h with ⟨_, _, _, _, h5⟩
  intro row hrow hmem
  rcases h5 row hrow hmem with ⟨hlo, hhi⟩
  refine ⟨⟨hlo, hhi⟩, fun hz => ?_⟩
  rw [hz] at hlo hhi
  have h0 : (0:ℚ) * (1/2) = 0 := by norm_num
  have h1 : (0:ℚ) * (3/2) = 0 := by norm_num
  rw [h0] at hlo
  rw [h1] at hhi
  linarith

/-- Witness for the amended C3 at a concrete feasible input in which the
zero-area crop indeed receives area 0. -/
theorem C3_continuity_amended_witness :
    feasible zeroAreaPd zeroAreaTbl 100 zeroAreaAllocOK = true
    ∧ (∀ row ∈ zeroAreaPd, row.name ∈ crops zeroAreaTbl →
        (currentPlanted zeroAreaPd row.name * (1/2) ≤ zeroAreaAllocOK row.name
          ∧ zeroAreaAllocOK row.name ≤ currentPlanted zeroAreaPd row.name * (3/2))
        ∧ (currentPlanted zeroAreaPd row.name = 0 → zeroAreaAllocOK row.name = 0)) :=
  ⟨by with_unfolding_all decide,
    C3_continuity_amended zeroAreaPd zeroAreaTbl 100 zeroAreaAllocOK
      (by with_unfolding_all decide)⟩

/-- Counterexample to claim C4: with 10 亩 of soybean currently planted and
`totalArea = 0`, the all-zero assignment violates the continuity lower bound
`area ≥ 0.5 × 10`, so the claimed "status=optimal with all areas 0" result
is impossible (the LP is in fact infeasible). -/
theorem C4_zero_total_counterexample :
    feasible posAreaPd zeroAreaTbl 0 (fun _ => 0) = false
    ∧ ¬ IsOptimal posAreaPd zeroAreaTbl exPrefs 0 (fun _ => 0) := by
  refine ⟨by with_unfolding_all decide, fun h => ?_⟩
  have h1 := h.1
  have h2 : feasible posAreaPd zeroAreaTbl 0 (fun _ => 0) = false := by
    with_unfolding_all decide
  rw [h1] at h2
  cases h2

/-- Claim C4 as amended: when every benefit-table crop has current planted
area 0, calling the optimizer with `totalArea = 0` does yield the all-zero
assignment as an optimal solution (all areas 0, hence allocated area 0). -/
theorem C4_zero_total_amended (pd : List PRow) (tbl : List BRow) (p : Prefs)
    (h : ∀ c ∈ crops tbl, currentPlanted pd c = 0) :
    IsOptimal pd tbl p 0 (fun _ => 0) := by
  have hzero : ∀ (l : List String), (l.map (fun _ => (0:ℚ))).sum = 0 := sum_map_zero
  constructor
  · rw [feasible_iff]
    refine ⟨fun c _ => le_refl 0, ?_, Or.inr ?_, fun c _ => ?_, fun row hrow hmem => ?_⟩
    · rw [hzero (crops tbl)]
    · rw [hzero (beanCrops tbl)]
      norm_num
    · norm_num
    · rw [h row.name hmem]
      norm_num
  · intro a ha
    rcases (feasible_iff pd tbl 0 a).mp ha with ⟨h1, h2, _, _, _⟩
    have hz : ∀ c ∈ crops tbl, a c = 0 := by
      intro c hc
      have := all_zero_of_nonneg_of_sum_nonpos ((crops tbl).map a)
        (fun x hx => by
          rcases List.mem_map.mp hx with ⟨c0, hc0, rfl⟩
          exact h1 c0 hc0) h2
      exact this (a c) (List.mem_map.mpr ⟨c, hc, rfl⟩)
    have hoa : objValue tbl p a = 0 := by
      apply List.sum_eq_zero
      intro x hx
      rcases List.mem_map.mp hx with ⟨c, hc, rfl⟩
      rw [hz c hc, mul_zero]
    have hoz : objValue tbl p (fun _ => 0) = 0 := by
      apply List.sum_eq_zero
      intro x hx
      rcases List.mem_map.mp hx with ⟨c, _, rfl⟩
      exact mul_zero _
    rw [hoa, hoz]

/-- Witness for the amended C4: the empty planting table with `exTbl` and
`totalArea = 0` gives the all-zero optimal solution. -/
theorem C4_zero_total_amended_witness :
    (∀ c ∈ crops exTbl, currentPlanted [] c = 0)
    ∧ IsOptimal [] exTbl exPrefs 0 (fun _ => 0) :=
  ⟨by with_unfolding_all decide,
    C4_zero_total_amended [] exTbl exPrefs (by with_unfolding_all decide)⟩

/-- Claim C5: for every benefit table and crop row in it, the suitability
score equals 0.4·(benefit / max benefit) + 0.3·((1 − cost/max cost) +
yield/max yield)/2 + 0.3·(rotation bonus + (1 − cost/max cost))/2, the
rotation bonus being 0.3 for a crop whose name contains 豆 and 0.1
otherwise, with no clamping of the total to [0, 1]. -/
theorem C5_suitability_formula (tbl : List BRow) (r : BRow) (hr : r ∈ tbl) :
    suitability tbl r =
      (4/10) * (r.benefit / colMax (fun x => x.benefit) tbl)
      + (3/10) * (((1 - r.cost / colMax (fun x => x.cost) tbl)
          + r.cropYield / colMax (fun x => x.cropYield) tbl) / 2)
      + (3/10) * (((if r.name.toList.contains '豆' then (3:ℚ)/10 else 1/10)
          + (1 - r.cost / colMax (fun x => x.cost) tbl)) / 2) := by
  unfold suitability sustainabilityBonus isBean
  split_ifs <;> ring

/-- Witness for C5 at the soybean row of the concrete table. -/
theorem C5_suitability_formula_witness :
    (⟨"大豆", 80, 300, 300, 2⟩ : BRow) ∈ exTbl
    ∧ suitability exTbl ⟨"大豆", 80, 300, 300, 2⟩ =
      (4/10) * ((80:ℚ) / colMax (fun x => x.benefit) exTbl)
      + (3/10) * (((1 - (300:ℚ) / colMax (fun x => x.cost) exTbl)
          + (300:ℚ) / colMax (fun x => x.cropYield) exTbl) / 2)
      + (3/10) * (((if ("大豆":String).toList.contains '豆' then (3:ℚ)/10 else 1/10)
          + (1 - (300:ℚ) / colMax (fun x => x.cost) exTbl)) / 2) :=
  ⟨by decide, C5_suitability_formula exTbl ⟨"大豆", 80, 300, 300, 2⟩ (by decide)⟩

/-- Claim C6: each crop's risk score is the average of `cost/1000` and
`1 − yield/(max yield)`; the overall risk is the unweighted arithmetic mean
of the per-crop scores (not weighted by area); and the ROI is
`total return / total investment × 100`, defined as 0 when the total
investment is not positive — in particular 0 when it is 0. -/
theorem C6_risk_analysis_formulas (tbl : List BRow) (allocs : List (String × ℚ))
    (h : allocs ≠ []) :
    (∀ e ∈ (riskAnalysis tbl allocs).crop_risks,
        e.2.risk_score = ((rowFor tbl e.1).cost / 1000
          + (1 - (rowFor tbl e.1).cropYield / colMax (fun x => x.cropYield) tbl)) / 2)
    ∧ (riskAnalysis tbl allocs).overall_risk
        = ((allocs.map (fun ca => riskScore tbl ca.1)).sum) / (allocs.length : ℚ)
    ∧ (riskAnalysis tbl allocs).roi
        = (if 0 < (riskAnalysis tbl allocs).total_investment then
            (riskAnalysis tbl allocs).total_expected_return
              / (riskAnalysis tbl allocs).total_investment * 100
          else 0)
    ∧ ((riskAnalysis tbl allocs).total_investment = 0 → (riskAnalysis tbl allocs).roi = 0) := by
  refine ⟨?_, ?_, ?_, ?_⟩
  · intro e he
    simp only [riskAnalysis, List.mem_map] at he
    rcases he with ⟨ca, _, rfl⟩
    simp [riskScore]
  · simp [riskAnalysis, List.map_map]
    rfl
  · rfl
  · intro h0
    have : ¬ 0 < (riskAnalysis tbl allocs).total_investment := by
      rw [h0]
      exact lt_irrefl 0
    simp only [riskAnalysis] at this ⊢
    rw [if_neg this]

/-- Witness for C6 at a concrete allocation dict. -/
theorem C6_risk_analysis_formulas_witness :
    ([("小麦", (10:ℚ))] ≠ [])
    ∧ ((∀ e ∈ (riskAnalysis exTbl [("小麦", 10)]).crop_risks,
        e.2.risk_score = ((rowFor exTbl e.1).cost / 1000
          + (1 - (rowFor exTbl e.1).cropYield / colMax (fun x => x.cropYield) exTbl)) / 2)
    ∧ (riskAnalysis exTbl [("小麦", 10)]).overall_risk
        = (([("小麦", (10:ℚ))].map (fun ca => riskScore exTbl ca.1)).sum)
            / (([("小麦", (10:ℚ))].length : ℚ))
    ∧ (riskAnalysis exTbl [("小麦", 10)]).roi
        = (if 0 < (riskAnalysis exTbl [("小麦", 10)]).total_investment then
            (riskAnalysis exTbl [("小麦", 10)]).total_expected_return
              / (riskAnalysis exTbl [("小麦", 10)]).total_investment * 100
          else 0)
    ∧ ((riskAnalysis exTbl [("小麦", 10)]).total_investment = 0 →
        (riskAnalysis exTbl [("小麦", 10)]).roi = 0)) :=
  ⟨by decide, C6_risk_analysis_formulas exTbl [("小麦", 10)] (by decide)⟩

/-- Claim C7: `predict` called before a successful `train` returns the
defined not-trained signal `none` rather than raising, and after a
successful `train` every predicted price is at least 0.1 (each prediction
is floored by `max(·, 0.1)`). -/
theorem C7_predictor_guard_and_floor (p : Predictor) (fit : Option (ℚ → ℚ → ℚ))
    (dates : List (ℚ × ℚ)) :
    predict initPredictor dates = none
    ∧ (p.is_trained = false → predict p dates = none)
    ∧ ((train p fit).1 = true →
        ∃ l, predict (train p fit).2 dates = some l ∧ ∀ x ∈ l, (1/10 : ℚ) ≤ x) := by
  refine ⟨rfl, fun h => ?_, fun h => ?_⟩
  · simp [predict, h]
  · cases fit with
    | none => simp [train] at h
    | some f =>
      refine ⟨dates.map (fun d => max (f d.1 d.2) (1/10)), ?_, ?_⟩
      · simp [predict, train]
      · intro x hx
        rcases List.mem_map.mp hx with ⟨d, _, rfl⟩
        exact le_max_right _ _

set_option maxRecDepth 10000 in
/-- Counterexample to claim C8: one corn crop with 亩效益 = −19 and 10 亩
currently planted, total area 100.  The objective coefficient is negative,
so the optimal solution sits at the continuity lower bound of 5 亩; the
baseline benefit is −190 ≠ 0, the claim's formula gives
`(−95 − (−190))/(−190) × 100 = −50`, but the code's
`if current_total_benefit > 0` guard leaves `expected_improvement` at 0. -/
theorem C8_negative_baseline_counterexample :
    IsOptimal negPd negTbl exPrefs 100 negAlloc
    ∧ baselineBenefit negTbl negPd = -190
    ∧ currentTotalOfResult negTbl negPd negAlloc = -190
    ∧ newTotalBenefit negTbl negAlloc = -95
    ∧ expectedImprovement negTbl negPd negAlloc = 0
    ∧ (newTotalBenefit negTbl negAlloc - baselineBenefit negTbl negPd)
        / baselineBenefit negTbl negPd * 100 = -50 := by
  have hobj : ∀ b : String → ℚ,
      objValue negTbl exPrefs b = coeff negTbl exPrefs "玉米" * b "玉米" := by
    intro b
    show ((crops negTbl).map (fun c => coeff negTbl exPrefs c * b c)).sum = _
    rw [show crops negTbl = ["玉米"] from rfl, List.map_cons, List.map_nil,
      List.sum_cons, List.sum_nil, add_zero]
  refine ⟨⟨by with_unfolding_all decide, fun a ha => ?_⟩,
    by with_unfolding_all decide, by with_unfolding_all decide,
    by with_unfolding_all decide, by with_unfolding_all decide,
    by with_unfolding_all decide⟩
  rcases (feasible_iff negPd negTbl 100 a).mp ha with ⟨_, _, _, _, h5⟩
  have hm := (h5 ⟨"A1", "玉米", "粮食", 10, "单季"⟩ (by decide) (by decide)).1
  have hcur : currentPlanted negPd "玉米" * (1/2) = 5 := by
    with_unfolding_all decide
  rw [hcur] at hm
  have hneg : coeff negTbl exPrefs "玉米" < 0 := by with_unfolding_all decide
  have ha5 : negAlloc "玉米" = 5 := rfl
  rw [hobj a, hobj negAlloc, ha5]
  exact mul_le_mul_of_nonpos_left hm (le_of_lt hneg)

/-- Claim C8 as amended: in every optimal result, `current_total_benefit` —
though accumulated only over crops the solver gave a positive area — equals
the benefit of the currently planted areas over the whole planting table
(its crop names being foreign keys into the benefit table), because the
continuity constraint forces every crop with positive current area to keep
a positive area; `expected_improvement` equals the relative improvement
`(new − current)/current × 100` over that baseline when the baseline is
strictly positive, and is 0 whenever the baseline is ≤ 0 — when it is 0,
but also when it is negative, where the `> 0` guard suppresses the
formula. -/
theorem C8_expected_improvement_amended (pd : List PRow) (tbl : List BRow) (total : ℚ)
    (alloc : String → ℚ)
    (hfeas : feasible pd tbl total alloc = true)
    (hnd : (crops tbl).Nodup)
    (harea : ∀ row ∈ pd, 0 ≤ row.area)
    (hfk : ∀ row ∈ pd, row.name ∈ crops tbl) :
    currentTotalOfResult tbl pd alloc = baselineBenefit tbl pd
    ∧ (0 < baselineBenefit tbl pd →
        expectedImprovement tbl pd alloc
          = (newTotalBenefit tbl alloc - baselineBenefit tbl pd)
              / baselineBenefit tbl pd * 100)
    ∧ (baselineBenefit tbl pd ≤ 0 → expectedImprovement tbl pd alloc = 0) := by
  have key : currentTotalOfResult tbl pd alloc
      = ((crops tbl).map (fun c => (rowFor tbl c).benefit * currentPlanted pd c)).sum := by
    unfold currentTotalOfResult
    apply congrArg
    apply List.map_congr_left
    intro c hc
    by_cases hpos : 0 < alloc c
    · rw [if_pos hpos]
    · rw [if_neg hpos]
      have hnn : 0 ≤ currentPlanted pd c := currentPlanted_nonneg pd c harea
      rcases eq_or_lt_of_le hnn with heq | hlt
      · rw [← heq, mul_zero]
      · exfalso
        rcases exists_row_of_currentPlanted_pos pd c hlt with ⟨row, hrow, hname⟩
        rcases (feasible_iff pd tbl total alloc).mp hfeas with ⟨_, _, _, _, h5⟩
        have hb := (h5 row hrow (by rw [hname]; exact hc)).1
        rw [hname] at hb
        have hhalf : (0:ℚ) < currentPlanted pd c * (1/2) :=
          mul_pos hlt (by norm_num)
        exact hpos (lt_of_lt_of_le hhalf hb)
  have hgroup : ((crops tbl).map (fun c => (rowFor tbl c).benefit * currentPlanted pd c)).sum
      = baselineBenefit tbl pd := by
    unfold baselineBenefit
    exact grouped_sum (fun c => (rowFor tbl c).benefit) (crops tbl) hnd pd hfk
  have hmain : currentTotalOfResult tbl pd alloc = baselineBenefit tbl pd :=
    key.trans hgroup
  refine ⟨hmain, fun hpos => ?_, fun hz => ?_⟩
  · unfold expectedImprovement
    rw [hmain, if_pos hpos]
  · unfold expectedImprovement
    rw [hmain, if_neg (not_lt.mpr hz)]

/-- Witness for the amended C8 at a concrete feasible input. -/
theorem C8_expected_improvement_amended_witness :
    (feasible exPd exTbl 100 exAllocC8 = true
      ∧ (crops exTbl).Nodup
      ∧ (∀ row ∈ exPd, 0 ≤ row.area)
      ∧ (∀ row ∈ exPd, row.name ∈ crops exTbl))
    ∧ (currentTotalOfResult exTbl exPd exAllocC8 = baselineBenefit exTbl exPd
      ∧ (0 < baselineBenefit exTbl exPd →
          expectedImprovement exTbl exPd exAllocC8
            = (newTotalBenefit exTbl exAllocC8 - baselineBenefit exTbl exPd)
                / baselineBenefit exTbl exPd * 100)
      ∧ (baselineBenefit exTbl exPd ≤ 0 → expectedImprovement exTbl exPd exAllocC8 = 0)) :=
  ⟨⟨by with_unfolding_all decide, by decide, by with_unfolding_all decide,
      by decide⟩,
    C8_expected_improvement_amended exPd exTbl 100 exAllocC8
      (by with_unfolding_all decide) (by decide) (by with_unfolding_all decide)
      (by decide)⟩

/-- Claim C9 evaluated on the code: on a benefit table whose cost column is
all zeros (column maximum 0), `calculate_crop_suitability` computes
`cost/max(cost) = 0.0/0.0 = NaN` in float64 and the NaN propagates silently
into every crop's returned score — the scorer does not return a defined
numeric score and no guard treats 0/0 as 0. -/
theorem C9_nan_propagation :
    colMax (fun x => x.cost) zeroCostTbl = 0
    ∧ suitabilityFP zeroCostTbl ⟨"小麦", 100, 0, 500, 1⟩ = FP.nan
    ∧ suitabilityFP zeroCostTbl ⟨"大豆", 50, 0, 300, 2⟩ = FP.nan := by
  with_unfolding_all decide

/-- Claim C10: a crop is rotation-beneficial exactly when its name contains
the character 豆: the sustainability bonus is 0.3 for such names and 0.1
otherwise, `bean_crops` is the name list filtered by that same character
test, and the planting table's crop-category column (作物类型) has no effect
on the constraint system, the expected improvement, or optimality —
rewriting every row's category arbitrarily changes nothing. -/
theorem C10_bean_is_name_test (tbl : List BRow) (pd : List PRow) (p : Prefs)
    (total : ℚ) (alloc : String → ℚ) (f : PRow → String) (nm : String) :
    (sustainabilityBonus nm = if nm.toList.contains '豆' then (3:ℚ)/10 else 1/10)
    ∧ (beanCrops tbl = (crops tbl).filter (fun c => c.toList.contains '豆'))
    ∧ (feasible (pd.map (fun row => { row with category := f row })) tbl total alloc
        = feasible pd tbl total alloc)
    ∧ (expectedImprovement tbl (pd.map (fun row => { row with category := f row })) alloc
        = expectedImprovement tbl pd alloc)
    ∧ (IsOptimal (pd.map (fun row => { row with category := f row })) tbl p total alloc
        ↔ IsOptimal pd tbl p total alloc) := by
  have hcp : ∀ (qd : List PRow) (c : String),
      currentPlanted (qd.map (fun row => { row with category := f row })) c
        = currentPlanted qd c := by
    intro qd c
    induction qd with
    | nil => rfl
    | cons row rest ih =>
      calc currentPlanted ((row :: rest).map (fun row => { row with category := f row })) c
          = (if ({ row with category := f row } : PRow).name = c
              then ({ row with category := f row } : PRow).area else 0)
            + currentPlanted (rest.map (fun row => { row with category := f row })) c := by
            rw [List.map_cons]
            exact currentPlanted_cons _ _ _
        _ = (if row.name = c then row.area else 0) + currentPlanted rest c := by rw [ih]
        _ = currentPlanted (row :: rest) c := (currentPlanted_cons _ _ _).symm
  have hcont : ∀ a : String → ℚ,
      continuityOK (pd.map (fun row => { row with category := f row })) tbl a
        = continuityOK pd tbl a := by
    intro a
    unfold continuityOK
    rw [List.all_map]
    apply congrArg
    funext row
    simp only [Function.comp]
    rw [hcp]
  have hfeq : ∀ (a : String → ℚ) (t : ℚ),
      feasible (pd.map (fun row => { row with category := f row })) tbl t a
        = feasible pd tbl t a := by
    intro a t
    unfold feasible
    rw [hcont a]
  have hctr : currentTotalOfResult tbl (pd.map (fun row => { row with category := f row })) alloc
      = currentTotalOfResult tbl pd alloc := by
    unfold currentTotalOfResult
    apply congrArg
    apply List.map_congr_left
    intro c _
    rw [hcp]
  refine ⟨rfl, rfl, hfeq alloc total, ?_, ?_⟩
  · unfold expectedImprovement
    rw [hctr]
  · unfold IsOptimal
    simp only [hfeq]

end Agri

